import Mathlib

/-!
Verification of the self-cloning execution guard in
`vendor/github.com/opencontainers/runc/libcontainer/nsenter/cloned_binary.c`.

The C file is embedded shallowly:

* Machine integers become `Nat`/`Int`; errno values are the Linux constants.
* The process descriptor table becomes an explicit `FdState` (a finite set of
  open descriptor numbers plus a fresh-allocation counter); `open`-like calls
  allocate the counter value, `close` erases a descriptor.
* Syscall outcomes that depend on the kernel (failure of `open`, `fcntl`,
  `memfd_create`, `sendfile`, `fstat`, `fexecve`, readability and contents of
  the `/proc/self` pseudo-files, contents of the executable) are supplied by an
  oracle structure `Inj`; each C function is a pure function of the oracle and
  the descriptor state, mirroring the C control flow branch for branch.
* Loops that walk buffers (`read_file`'s read loop, `parse_xargs`'s scan loop)
  are written with a structural fuel argument equal to the buffer length, so
  that every definition evaluates by kernel reduction; one byte is consumed per
  iteration at least, hence the fuel never runs out on the lengths used.
-/

deriving instance DecidableEq for Except

namespace ClonedBinary

/-- Linux errno values used by the C file (returned negated). -/
def ENOTRECOVERABLE : Int := 131

/-- Linux errno EINVAL. -/
def EINVAL : Int := 22

/-- Linux errno EIO. -/
def EIO_errno : Int := 5

/-- Linux errno ENOEXEC. -/
def ENOEXEC : Int := 8

/-- `F_SEAL_SEAL`: prevent further seals from being set. -/
def F_SEAL_SEAL : Nat := 0x0001

/-- `F_SEAL_SHRINK`: prevent file from shrinking. -/
def F_SEAL_SHRINK : Nat := 0x0002

/-- `F_SEAL_GROW`: prevent file from growing. -/
def F_SEAL_GROW : Nat := 0x0004

/-- `F_SEAL_WRITE`: prevent writes. -/
def F_SEAL_WRITE : Nat := 0x0008

/-- `RUNC_MEMFD_SEALS`, the exact seal set the guard applies and queries for. -/
def RUNC_MEMFD_SEALS : Nat :=
  F_SEAL_SEAL ||| F_SEAL_SHRINK ||| F_SEAL_GROW ||| F_SEAL_WRITE

/-- `RUNC_SENDFILE_MAX`: the cap passed to the single sendfile(2) call. -/
def RUNC_SENDFILE_MAX : Nat := 0x7FFFF000

/-- The process descriptor table: the set of open descriptor numbers and a
counter from which fresh descriptors are allocated. -/
structure FdState where
  fds : Finset Nat
  next : Nat
deriving DecidableEq

/-- Well-formedness: every open descriptor is below the allocation counter,
so freshly allocated descriptors are genuinely fresh. -/
def FdState.WF (s : FdState) : Prop := ∀ fd ∈ s.fds, fd < s.next

/-- A successful `open`-like call: returns the fresh descriptor and the new
table. -/
def fdOpen (s : FdState) : Nat × FdState :=
  (s.next, ⟨insert s.next s.fds, s.next + 1⟩)

/-- `close(fd)`: removes the descriptor from the table. -/
def fdClose (fd : Nat) (s : FdState) : FdState :=
  ⟨s.fds.erase fd, s.next⟩

/-- Outcome of one of the `/proc/self` pseudo-files as seen by `read_file`:
either the file cannot be opened/read, or it has the given byte content. -/
inductive FileSrc where
  | unreadable
  | content (bs : List Nat)
deriving DecidableEq

/-- The read loop of `read_file`: repeatedly reads up to 4096 bytes and appends
them to the accumulated copy, until end-of-file.  `fuel` bounds the number of
iterations; each iteration consumes at least one byte, so `fuel = bs.length`
always suffices and the `0` branch is never reached with nonempty input. -/
def readLoopF : Nat → List Nat → List Nat → List Nat
  | _, [], copy => copy
  | 0, _ :: _, copy => copy
  | fuel + 1, b :: rest, copy =>
      readLoopF fuel ((b :: rest).drop 4096) (copy ++ (b :: rest).take 4096)

/-- `read_file`: reads a pseudo-file fully into a growing buffer.  Returns
`none` when the file cannot be opened or read; the C function also returns
NULL for a zero-length file, because its buffer pointer is never allocated
when no byte is read. -/
def read_file (src : FileSrc) (s : FdState) : Option (List Nat) × FdState :=
  match src with
  | .unreadable => (none, s)
  | .content bs =>
      let o := fdOpen s
      let res := readLoopF bs.length bs []
      (if res = [] then none else some res, fdClose o.1 o.2)

/-- The C-string starting at the cursor: the bytes up to the first NUL.  When
no NUL is present in the remaining buffer the scan is modelled as stopping at
the end of the buffer (in C, `strlen` past the buffer is undefined; the
`/proc` sources are always NUL-terminated). -/
def cstr (l : List Nat) : List Nat := l.takeWhile (fun b => b != 0)

/-- The entries produced by `parse_xargs`'s scan loop, as plain strings:
at each step the entry is the C-string at the cursor, and the cursor advances
by its length plus one (skipping the NUL). -/
def parseEntriesF : Nat → List Nat → List (List Nat)
  | _, [] => []
  | 0, _ :: _ => []
  | fuel + 1, b :: rest =>
      cstr (b :: rest) ::
        parseEntriesF fuel ((b :: rest).drop ((cstr (b :: rest)).length + 1))

/-- The entry sequence of a NUL-delimited blob. -/
def parseEntries (bs : List Nat) : List (List Nat) := parseEntriesF bs.length bs

/-- `realloc` of the output array to `n` slots: the existing slots are kept,
new slots hold indeterminate memory, modelled by an arbitrary `junk` value. -/
def growTo (junk : Option (List Nat)) (arr : List (Option (List Nat)))
    (n : Nat) : List (Option (List Nat)) :=
  arr ++ List.replicate (n - arr.length) junk

/-- The scan loop of `parse_xargs`: per iteration, `num` is incremented, the
array is reallocated to `num + 1` slots and the entry pointer is stored at
index `num - 1` (here: the entry string, since pointers into the buffer denote
their C-strings).  Fuel as in `readLoopF`. -/
def parseStepF (junk : Option (List Nat)) :
    Nat → List Nat → Nat → List (Option (List Nat)) →
      Nat × List (Option (List Nat))
  | _, [], num, arr => (num, arr)
  | 0, _ :: _, num, arr => (num, arr)
  | fuel + 1, b :: rest, num, arr =>
      parseStepF junk fuel ((b :: rest).drop ((cstr (b :: rest)).length + 1))
        (num + 1)
        ((growTo junk arr (num + 2)).set num (some (cstr (b :: rest))))

/-- `parse_xargs`: splits a NUL-delimited blob into an array of entries and
writes a NULL sentinel at index `num`.  Returns `-1` when `data` is NULL.
(For a NULL `data` the C function also rejects a non-NULL `*output`; in
`fetchve` the output always starts NULL, so that guard is not modelled.  For a
zero-length blob the C sentinel write dereferences the never-allocated output
array; no theorem below evaluates that point.) -/
def parse_xargs (junk : Option (List Nat)) (data : Option (List Nat)) :
    Int × List (Option (List Nat)) :=
  match data with
  | none => (-1, [])
  | some bs =>
      let r := parseStepF junk bs.length bs 0 []
      ((r.1 : Int), r.2.set r.1 none)

/-- The syscall oracle: one guard run's kernel-determined outcomes.
`sealsRet` is the raw return of `fcntl(fd, F_GET_SEALS)` (the seal set, or
`-1` on error); `junk` is the indeterminate content of freshly reallocated
output-array slots; `selfExe` is the byte content of `/proc/self/exe`. -/
structure Inj where
  openExeFail : Bool
  sealsRet : Int
  fstatFail : Bool
  nlink : Nat
  cmdline : FileSrc
  environ : FileSrc
  junk : Option (List Nat)
  memfdFail : Bool
  openBinFail : Bool
  sendfileFail : Bool
  sealFail : Bool
  execFail : Bool
  selfExe : List Nat
deriving DecidableEq

/-- `is_self_cloned`, in the `HAVE_MEMFD_CREATE` build: open
`/proc/self/exe`; on failure return `-ENOTRECOVERABLE`; otherwise the result
is 1 exactly when `fcntl(F_GET_SEALS)` returns the exact expected seal set,
and the descriptor is closed again. -/
def is_self_cloned (w : Inj) (s : FdState) : Int × FdState :=
  if w.openExeFail then (-ENOTRECOVERABLE, s)
  else
    let o := fdOpen s
    let ret := w.sealsRet
    let is_cloned : Int := if ret = (RUNC_MEMFD_SEALS : Int) then 1 else 0
    (is_cloned, fdClose o.1 o.2)

/-- `is_self_cloned`, in the fallback build without `memfd_create`: open as
above; `fstat` the descriptor; on `fstat` success the result is 1 exactly when
the link count is zero; on `fstat` failure `is_cloned` keeps its initial value
0. -/
def is_self_cloned_nomemfd (w : Inj) (s : FdState) : Int × FdState :=
  if w.openExeFail then (-ENOTRECOVERABLE, s)
  else
    let o := fdOpen s
    let is_cloned : Int :=
      if w.fstatFail then 0 else if w.nlink = 0 then 1 else 0
    (is_cloned, fdClose o.1 o.2)

/-- `fetchve`: read `/proc/self/cmdline` and `/proc/self/environ` fully, then
split each; any failure (unreadable or empty file, no complete entry) returns
`-EINVAL`.  On success yields the argv and envp arrays. -/
def fetchve (w : Inj) (s : FdState) :
    Except Int (List (Option (List Nat)) × List (Option (List Nat))) ×
      FdState :=
  let r1 := read_file w.cmdline s
  match r1.1 with
  | none => (.error (-EINVAL), r1.2)
  | some cmdl =>
      let r2 := read_file w.environ r1.2
      match r2.1 with
      | none => (.error (-EINVAL), r2.2)
      | some env =>
          let pa := parse_xargs w.junk (some cmdl)
          if pa.1 ≤ 0 then (.error (-EINVAL), r2.2)
          else
            let pe := parse_xargs w.junk (some env)
            if pe.1 ≤ 0 then (.error (-EINVAL), r2.2)
            else (.ok (pa.2, pe.2), r2.2)

/-- The sealed in-memory image produced by `clone_binary`: its byte content
and the seal set applied to it. -/
structure MemImage where
  content : List Nat
  seals : Nat
deriving DecidableEq

/-- `clone_binary`, in the `HAVE_MEMFD_CREATE` build: create a memfd
(failure: `-ENOTRECOVERABLE`), open `/proc/self/exe`, issue one
`sendfile(memfd, binfd, NULL, RUNC_SENDFILE_MAX)` (the descriptor for the
source is closed immediately after), seal the memfd with
`RUNC_MEMFD_SEALS`; every failure after creation closes the memfd and returns
`-EIO`.  On success returns the memfd number together with its image: the
first `RUNC_SENDFILE_MAX` bytes of the executable, sealed. -/
def clone_binary (w : Inj) (s : FdState) : Int × Option MemImage × FdState :=
  if w.memfdFail then (-ENOTRECOVERABLE, none, s)
  else
    let o1 := fdOpen s
    if w.openBinFail then (-EIO_errno, none, fdClose o1.1 o1.2)
    else
      let o2 := fdOpen o1.2
      let sent : Int :=
        if w.sendfileFail then -1
        else ((min w.selfExe.length RUNC_SENDFILE_MAX : Nat) : Int)
      let s3 := fdClose o2.1 o2.2
      if sent < 0 then (-EIO_errno, none, fdClose o1.1 s3)
      else if w.sealFail then (-EIO_errno, none, fdClose o1.1 s3)
      else ((o1.1 : Int),
        some ⟨w.selfExe.take RUNC_SENDFILE_MAX, RUNC_MEMFD_SEALS⟩, s3)

/-- The operations of the guard, for recording the invocation trace. -/
inductive Op where
  | detect
  | fetch
  | clone
  | reexec
deriving DecidableEq

/-- Outcome of `ensure_cloned_binary`: either it returns a status code, or
`fexecve` succeeds and the process image is replaced (the call diverges). -/
inductive EnsureResult where
  | ret (code : Int)
  | exec (execfd : Nat) (argv envp : List (Option (List Nat)))
deriving DecidableEq

/-- `ensure_cloned_binary`: detect; when already cloned (or detection is
unrecoverable) return the detection result at once; otherwise fetch argv/envp
(failure: `-EINVAL`), clone (failure: `-EIO`), then `fexecve` (failure:
`-ENOEXEC`; success never returns).  The third component records which
operations were invoked, in order. -/
def ensure_cloned_binary (w : Inj) (s : FdState) :
    EnsureResult × FdState × List Op :=
  let d := is_self_cloned w s
  if d.1 > 0 ∨ d.1 = -ENOTRECOVERABLE then (.ret d.1, d.2, [.detect])
  else
    let f := fetchve w d.2
    match f.1 with
    | .error _ => (.ret (-EINVAL), f.2, [.detect, .fetch])
    | .ok ve =>
        let c := clone_binary w f.2
        if c.1 < 0 then (.ret (-EIO_errno), c.2.2, [.detect, .fetch, .clone])
        else if w.execFail then
          (.ret (-ENOEXEC), c.2.2, [.detect, .fetch, .clone, .reexec])
        else (.exec c.1.toNat ve.1 ve.2, c.2.2,
          [.detect, .fetch, .clone, .reexec])

/-- A concrete configuration in which every syscall succeeds and the process
is not yet cloned: the seal query on the on-disk executable returns `-1`,
both pseudo-files are readable and nonempty, the executable has 3 bytes. -/
def wOk : Inj :=
  { openExeFail := false, sealsRet := -1, fstatFail := false, nlink := 1,
    cmdline := .content [97, 0], environ := .content [98, 0], junk := none,
    memfdFail := false, openBinFail := false, sendfileFail := false,
    sealFail := false, execFail := false, selfExe := [1, 2, 3] }

/-- The successful configuration, but with an executable one byte larger
than the sendfile cap. -/
def wBig : Inj :=
  { wOk with selfExe := List.replicate (RUNC_SENDFILE_MAX + 1) 0 }

/-- An initial descriptor table with no open descriptors. -/
def fd0 : FdState := ⟨∅, 0⟩

/-! ### Helper lemmas -/

/-- The empty descriptor table is well-formed. -/
lemma fd0_wf : FdState.WF fd0 := by
  intro fd hfd
  exact absurd hfd (Finset.not_mem_empty fd)

/-- Setting the element right after a prefix `l` rewrites the head of the
tail. -/
lemma set_after_append {α : Type} (l : List α) (a : α) (t : List α) (x : α) :
    (l ++ a :: t).set l.length x = l ++ x :: t := by
  induction l with
  | nil => rfl
  | cons b l ih => simp [List.set, ih]

/-- With fuel at least the buffer length, the read loop delivers the full
content appended to the accumulator. -/
lemma readLoopF_eq :
    ∀ (fuel : Nat) (bs copy : List Nat), bs.length ≤ fuel →
      readLoopF fuel bs copy = copy ++ bs := by
  intro fuel
  induction fuel with
  | zero =>
      intro bs copy h
      cases bs with
      | nil => simp [readLoopF]
      | cons b rest => simp at h
  | succ fuel ih =>
      intro bs copy h
      cases bs with
      | nil => simp [readLoopF]
      | cons b rest =>
          rw [readLoopF, ih]
          · rw [List.append_assoc, List.take_append_drop]
          · simp only [List.length_drop, List.length_cons]
            simp only [List.length_cons] at h
            omega

/-- The result of `read_file` on a readable file: `none` exactly for the
zero-length file, the content otherwise. -/
lemma read_file_content_fst (bs : List Nat) (s : FdState) :
    (read_file (.content bs) s).1 = if bs = [] then none else some bs := by
  simp [read_file, readLoopF_eq bs.length bs [] le_rfl]

/-- `WF` survives raising the allocation counter while keeping the
descriptor set. -/
lemma wf_raise {fds : Finset Nat} {n m : Nat}
    (h : FdState.WF ⟨fds, n⟩) (hnm : n ≤ m) : FdState.WF ⟨fds, m⟩ := by
  intro fd hfd
  exact lt_of_lt_of_le (h fd hfd) hnm

/-- The allocation counter is never an open descriptor of a well-formed
table. -/
lemma next_not_mem {s : FdState} (h : s.WF) : s.next ∉ s.fds := fun hm =>
  absurd (h s.next hm) (lt_irrefl s.next)

/-- Closing a freshly opened descriptor restores the descriptor set. -/
lemma erase_insert_next (s : FdState) (h : s.WF) :
    (insert s.next s.fds).erase s.next = s.fds :=
  Finset.erase_insert (next_not_mem h)

/-- The successor of the counter is not in the table even after opening the
counter value. -/
lemma succ_not_mem_insert (s : FdState) (h : s.WF) :
    s.next + 1 ∉ insert s.next s.fds := by
  intro hm
  rcases Finset.mem_insert.1 hm with h1 | h2
  · omega
  · have := h _ h2
    omega

/-! ### Characterization of the parse loop -/

/-- Loop invariant of `parse_xargs`'s scan: starting from `num` entries
already stored (array: the entries, then one indeterminate slot), the loop
stores the remaining entries and leaves one indeterminate slot at the end. -/
lemma parseStepF_go (junk : Option (List Nat)) :
    ∀ (fuel : Nat) (bs : List Nat) (es : List (List Nat)), bs.length ≤ fuel →
      es ≠ [] →
      parseStepF junk fuel bs es.length (es.map some ++ [junk]) =
        ((es ++ parseEntriesF fuel bs).length,
          (es ++ parseEntriesF fuel bs).map some ++ [junk]) := by
  intro fuel
  induction fuel with
  | zero =>
      intro bs es hlen hes
      cases bs with
      | nil => simp [parseStepF, parseEntriesF]
      | cons b rest => simp at hlen
  | succ fuel ih =>
      intro bs es hlen hes
      cases bs with
      | nil => simp [parseStepF, parseEntriesF]
      | cons b rest =>
          rw [parseStepF]
          have harr : (growTo junk (es.map some ++ [junk])
              (es.length + 2)).set es.length (some (cstr (b :: rest))) =
              (es ++ [cstr (b :: rest)]).map some ++ [junk] := by
            have hlen1 : (es.map some ++ [junk]).length = es.length + 1 := by
              simp
            have hgrow : growTo junk (es.map some ++ [junk])
                (es.length + 2) = es.map some ++ [junk, junk] := by
              simp [growTo, hlen1]
            rw [hgrow]
            have : (es.map some).length = es.length := by simp
            rw [← this, set_after_append]
            simp
          rw [harr]
          have hlen2 : ((b :: rest).drop
              ((cstr (b :: rest)).length + 1)).length ≤ fuel := by
            simp only [List.length_drop]
            simp at hlen ⊢
            omega
          have hes2 : es ++ [cstr (b :: rest)] ≠ [] := by simp
          have hlen3 : (es ++ [cstr (b :: rest)]).length = es.length + 1 := by
            simp
          have := ih ((b :: rest).drop ((cstr (b :: rest)).length + 1))
            (es ++ [cstr (b :: rest)]) hlen2 hes2
          rw [hlen3] at this
          rw [this, parseEntriesF]
          simp

/-- The entry sequence of a nonempty blob is nonempty, headed by the first
C-string. -/
lemma parseEntries_cons (b : Nat) (rest : List Nat) :
    parseEntries (b :: rest) =
      cstr (b :: rest) ::
        parseEntriesF rest.length
          ((b :: rest).drop ((cstr (b :: rest)).length + 1)) := by
  simp [parseEntries, parseEntriesF]

/-- `parse_xargs` on a nonempty blob: the count is the number of entries and
the array is the entries followed by the NULL sentinel. -/
lemma parse_xargs_eq (junk : Option (List Nat)) (b : Nat) (rest : List Nat) :
    parse_xargs junk (some (b :: rest)) =
      (((parseEntries (b :: rest)).length : Int),
        (parseEntries (b :: rest)).map some ++ [none]) := by
  have hlen2 : ((b :: rest).drop
      ((cstr (b :: rest)).length + 1)).length ≤ rest.length := by
    simp only [List.length_drop, List.length_cons]
    omega
  have hgo := parseStepF_go junk rest.length
    ((b :: rest).drop ((cstr (b :: rest)).length + 1)) [cstr (b :: rest)]
    hlen2 (by simp)
  simp only [List.length_singleton] at hgo
  have hstep : parseStepF junk (b :: rest).length (b :: rest) 0 [] =
      ((parseEntries (b :: rest)).length,
        (parseEntries (b :: rest)).map some ++ [junk]) := by
    have hlen : (b :: rest).length = rest.length + 1 := by simp
    rw [hlen, parseStepF]
    have harr : (growTo junk [] 2).set 0 (some (cstr (b :: rest))) =
        [cstr (b :: rest)].map some ++ [junk] := by
      simp [growTo, List.replicate, List.set]
    rw [harr]
    simp only [Nat.zero_add]
    rw [hgo, parseEntries_cons]
    simp
  show (let r := parseStepF junk (b :: rest).length (b :: rest) 0 []
    ((r.1 : Int), r.2.set r.1 none)) = _
  rw [hstep]
  have hset : ((parseEntries (b :: rest)).map some ++ [junk]).set
      (parseEntries (b :: rest)).length none =
      (parseEntries (b :: rest)).map some ++ [none] := by
    have hl : (parseEntries (b :: rest)).length =
        ((parseEntries (b :: rest)).map some).length := by simp
    rw [hl, set_after_append]
  simp [hset]

/-- A byte list without NUL is its own single C-string. -/
lemma cstr_eq_self (bs : List Nat) (h : ∀ b ∈ bs, b ≠ 0) : cstr bs = bs := by
  induction bs with
  | nil => rfl
  | cons b rest ih =>
      have hb : (b != 0) = true := by
        simpa using h b (by simp)
      have hrest : ∀ x ∈ rest, x ≠ 0 := fun x hx =>
        h x (List.mem_cons_of_mem _ hx)
      simp only [cstr] at ih ⊢
      rw [List.takeWhile_cons, if_pos hb, ih hrest]

/-! ### Descriptor accounting -/

/-- `KeepsFds s t`: the table `t` has the same open descriptors as `s` and an
allocation counter at least as large. -/
def KeepsFds (s t : FdState) : Prop := t.fds = s.fds ∧ s.next ≤ t.next

lemma keepsFds_refl (s : FdState) : KeepsFds s s := ⟨rfl, le_rfl⟩

lemma keepsFds_trans {s t u : FdState} (h1 : KeepsFds s t)
    (h2 : KeepsFds t u) : KeepsFds s u :=
  ⟨h2.1.trans h1.1, h1.2.trans h2.2⟩

lemma keepsFds_wf {s t : FdState} (hs : s.WF) (h : KeepsFds s t) : t.WF := by
  intro fd hfd
  rw [h.1] at hfd
  exact lt_of_lt_of_le (hs fd hfd) h.2

/-- Detection opens and closes one descriptor: the table is preserved. -/
lemma is_self_cloned_keeps (w : Inj) (s : FdState) (h : s.WF) :
    KeepsFds s (is_self_cloned w s).2 := by
  unfold is_self_cloned
  split
  · exact keepsFds_refl s
  · exact ⟨erase_insert_next s h, by simp [fdOpen, fdClose]⟩

/-- `read_file` opens and closes at most one descriptor: the table is
preserved. -/
lemma read_file_keeps (src : FileSrc) (s : FdState) (h : s.WF) :
    KeepsFds s (read_file src s).2 := by
  cases src with
  | unreadable => exact keepsFds_refl s
  | content bs =>
      exact ⟨erase_insert_next s h, by simp [read_file, fdOpen, fdClose]⟩

/-- `fetchve` reads two pseudo-files, each balancing its descriptor: the
table is preserved on every path. -/
lemma fetchve_keeps (w : Inj) (s : FdState) (h : s.WF) :
    KeepsFds s (fetchve w s).2 := by
  have h1 := read_file_keeps w.cmdline s h
  have hwf1 : (read_file w.cmdline s).2.WF := keepsFds_wf h h1
  have h2 := read_file_keeps w.environ (read_file w.cmdline s).2 hwf1
  have h12 := keepsFds_trans h1 h2
  unfold fetchve
  cases hc : (read_file w.cmdline s).1 with
  | none => simpa [hc] using h1
  | some cmdl =>
      cases he : (read_file w.environ (read_file w.cmdline s).2).1 with
      | none => simpa [hc, he] using h12
      | some env =>
          simp only [hc, he]
          split
          · exact h12
          · split
            · exact h12
            · exact h12

/-- The single sendfile transfer count is never negative on success. -/
lemma sendfile_count_nonneg (w : Inj) :
    ¬ (((min w.selfExe.length RUNC_SENDFILE_MAX : Nat) : Int) < 0) :=
  not_lt.mpr (Int.natCast_nonneg _)

/-- `clone_binary` when `memfd_create` fails. -/
lemma clone_binary_eq_memfd_fail (w : Inj) (s : FdState)
    (hm : w.memfdFail = true) :
    clone_binary w s = (-ENOTRECOVERABLE, none, s) := by
  simp [clone_binary, hm]

/-- `clone_binary` when opening `/proc/self/exe` fails: the memfd is closed
again. -/
lemma clone_binary_eq_openbin_fail (w : Inj) (s : FdState) (h : s.WF)
    (hm : w.memfdFail = false) (ho : w.openBinFail = true) :
    clone_binary w s = (-EIO_errno, none, ⟨s.fds, s.next + 1⟩) := by
  simp [clone_binary, hm, ho, fdOpen, fdClose, erase_insert_next s h]

/-- `clone_binary` when the transfer fails: source descriptor and memfd are
both closed. -/
lemma clone_binary_eq_sendfile_fail (w : Inj) (s : FdState) (h : s.WF)
    (hm : w.memfdFail = false) (ho : w.openBinFail = false)
    (hs : w.sendfileFail = true) :
    clone_binary w s = (-EIO_errno, none, ⟨s.fds, s.next + 2⟩) := by
  simp [clone_binary, hm, ho, hs, fdOpen, fdClose,
    Finset.erase_insert (succ_not_mem_insert s h), erase_insert_next s h]

/-- `clone_binary` when sealing fails: source descriptor and memfd are both
closed. -/
lemma clone_binary_eq_seal_fail (w : Inj) (s : FdState) (h : s.WF)
    (hm : w.memfdFail = false) (ho : w.openBinFail = false)
    (hs : w.sendfileFail = false) (hl : w.sealFail = true) :
    clone_binary w s = (-EIO_errno, none, ⟨s.fds, s.next + 2⟩) := by
  simp [clone_binary, hm, ho, hs, hl, fdOpen, fdClose,
    Finset.erase_insert (succ_not_mem_insert s h), erase_insert_next s h,
    sendfile_count_nonneg w]

/-- `clone_binary` when every step succeeds: the returned descriptor is the
memfd, which is the only new open descriptor; the image is the first
`RUNC_SENDFILE_MAX` bytes of the executable with the full seal set. -/
lemma clone_binary_eq_success (w : Inj) (s : FdState) (h : s.WF)
    (hm : w.memfdFail = false) (ho : w.openBinFail = false)
    (hs : w.sendfileFail = false) (hl : w.sealFail = false) :
    clone_binary w s = ((s.next : Int),
      some ⟨w.selfExe.take RUNC_SENDFILE_MAX, RUNC_MEMFD_SEALS⟩,
      ⟨insert s.next s.fds, s.next + 2⟩) := by
  simp [clone_binary, hm, ho, hs, hl, fdOpen, fdClose,
    Finset.erase_insert (succ_not_mem_insert s h),
    sendfile_count_nonneg w]

/-- `is_self_cloned` when the executable opens: result of the exact seal-set
comparison, and the table gets back its descriptor set. -/
lemma is_self_cloned_eq (w : Inj) (s : FdState) (h : s.WF)
    (ho : w.openExeFail = false) :
    is_self_cloned w s =
      (if w.sealsRet = (RUNC_MEMFD_SEALS : Int) then 1 else 0,
        ⟨s.fds, s.next + 1⟩) := by
  simp [is_self_cloned, ho, fdOpen, fdClose, erase_insert_next s h]

/-- The result value of `is_self_cloned` when the executable opens. -/
lemma is_self_cloned_fst (w : Inj) (s : FdState)
    (ho : w.openExeFail = false) :
    (is_self_cloned w s).1 =
      if w.sealsRet = (RUNC_MEMFD_SEALS : Int) then 1 else 0 := by
  simp [is_self_cloned, ho]

/-- Whenever `clone_binary` reports failure, the descriptor table has its
original descriptor set back. -/
lemma clone_binary_fail_fds (w : Inj) (s : FdState) (h : s.WF)
    (hc : (clone_binary w s).1 < 0) :
    (clone_binary w s).2.2.fds = s.fds := by
  cases hm : w.memfdFail with
  | true => rw [clone_binary_eq_memfd_fail w s hm]
  | false =>
      cases ho : w.openBinFail with
      | true => rw [clone_binary_eq_openbin_fail w s h hm ho]
      | false =>
          cases hs : w.sendfileFail with
          | true => rw [clone_binary_eq_sendfile_fail w s h hm ho hs]
          | false =>
              cases hl : w.sealFail with
              | true => rw [clone_binary_eq_seal_fail w s h hm ho hs hl]
              | false =>
                  rw [clone_binary_eq_success w s h hm ho hs hl] at hc
                  exact absurd hc (by simp)

/-- Whenever `clone_binary` succeeds, exactly the (fresh) memfd has been
added to the descriptor table. -/
lemma clone_binary_succ_fds (w : Inj) (s : FdState) (h : s.WF)
    (hc : ¬ (clone_binary w s).1 < 0) :
    s.next ∉ s.fds ∧
      (clone_binary w s).2.2.fds = insert s.next s.fds := by
  cases hm : w.memfdFail with
  | true =>
      rw [clone_binary_eq_memfd_fail w s hm] at hc
      exact absurd (by norm_num [ENOTRECOVERABLE]) hc
  | false =>
      cases ho : w.openBinFail with
      | true =>
          rw [clone_binary_eq_openbin_fail w s h hm ho] at hc
          exact absurd (by norm_num [EIO_errno]) hc
      | false =>
          cases hs : w.sendfileFail with
          | true =>
              rw [clone_binary_eq_sendfile_fail w s h hm ho hs] at hc
              exact absurd (by norm_num [EIO_errno]) hc
          | false =>
              cases hl : w.sealFail with
              | true =>
                  rw [clone_binary_eq_seal_fail w s h hm ho hs hl] at hc
                  exact absurd (by norm_num [EIO_errno]) hc
              | false =>
                  rw [clone_binary_eq_success w s h hm ho hs hl]
                  exact ⟨next_not_mem h, rfl⟩

/-- Any image `clone_binary` hands back is the first `RUNC_SENDFILE_MAX`
bytes of the executable, sealed with exactly `RUNC_MEMFD_SEALS`. -/
lemma clone_binary_some (w : Inj) (s : FdState) (h : s.WF) (img : MemImage)
    (himg : (clone_binary w s).2.1 = some img) :
    img = ⟨w.selfExe.take RUNC_SENDFILE_MAX, RUNC_MEMFD_SEALS⟩ := by
  cases hm : w.memfdFail with
  | true =>
      rw [clone_binary_eq_memfd_fail w s hm] at himg
      exact absurd himg (by simp)
  | false =>
      cases ho : w.openBinFail with
      | true =>
          rw [clone_binary_eq_openbin_fail w s h hm ho] at himg
          exact absurd himg (by simp)
      | false =>
          cases hs : w.sendfileFail with
          | true =>
              rw [clone_binary_eq_sendfile_fail w s h hm ho hs] at himg
              exact absurd himg (by simp)
          | false =>
              cases hl : w.sealFail with
              | true =>
                  rw [clone_binary_eq_seal_fail w s h hm ho hs hl] at himg
                  exact absurd himg (by simp)
              | false =>
                  rw [clone_binary_eq_success w s h hm ho hs hl] at himg
                  exact (Option.some.inj himg).symm

/-! ### Claim theorems -/

/-- Claim C3 (counterexample): the six-byte blob `"a\x00bb\x00\x00"` does
not split to the two entries `["a", "bb"]`: the scan loop also visits the
sixth byte (the second consecutive NUL) and records a third, empty entry, so
the count is 3 and the array keeps a trailing empty entry. -/
theorem parse_xargs_trailing_empty_cex :
    (parse_xargs (some [42]) (some [97, 0, 98, 98, 0, 0])).1 = 3 ∧
    (parse_xargs (some [42]) (some [97, 0, 98, 98, 0, 0])).2 =
      [some [97], some [98, 98], some [], none] ∧
    (parse_xargs (some [42]) (some [97, 0, 98, 98, 0, 0])).2 ≠
      [some [97], some [98, 98], none] := by
  decide

/-- Claim C3 (amended): the blob `"a\x00bb\x00\x00"` splits to the three
entries `["a", "bb", ""]` — the trailing empty entry arising from the final
consecutive NUL is retained — and a nonempty blob containing no NUL byte
splits to exactly one entry equal to the whole blob. -/
theorem parse_xargs_split (junk : Option (List Nat)) :
    (parse_xargs junk (some [97, 0, 98, 98, 0, 0])).1 = 3 ∧
    (parse_xargs junk (some [97, 0, 98, 98, 0, 0])).2 =
      [some [97], some [98, 98], some [], none] ∧
    ∀ bs : List Nat, bs ≠ [] → (∀ b ∈ bs, b ≠ 0) →
      parse_xargs junk (some bs) = (1, [some bs, none]) := by
  have he : parseEntries [97, 0, 98, 98, 0, 0] = [[97], [98, 98], []] := by
    decide
  have h1 := parse_xargs_eq junk 97 [0, 98, 98, 0, 0]
  rw [he] at h1
  refine ⟨by rw [h1]; simp, by rw [h1]; simp, ?_⟩
  intro bs hne hnonul
  cases bs with
  | nil => exact absurd rfl hne
  | cons b rest =>
      rw [parse_xargs_eq]
      have hcs : cstr (b :: rest) = b :: rest := cstr_eq_self _ hnonul
      have hdrop : (b :: rest).drop ((cstr (b :: rest)).length + 1) = [] :=
        List.drop_eq_nil_of_le (by rw [hcs]; simp)
      have hpe : parseEntries (b :: rest) = [b :: rest] := by
        rw [parseEntries_cons, hdrop, hcs]
        cases rest with
        | nil => rfl
        | cons c t => rfl
      rw [hpe]
      rfl

/-- Claim C3 (amended, witness). -/
theorem parse_xargs_split_witness :
    (parse_xargs (some [42]) (some [97, 0, 98, 98, 0, 0])).1 = 3 ∧
    parse_xargs (some [42]) (some [97, 98]) =
      (1, [some [97, 98], none]) :=
  ⟨(parse_xargs_split (some [42])).1,
    (parse_xargs_split (some [42])).2.2 [97, 98] (by decide) (by decide)⟩

/-- Claim C9: whenever `parse_xargs` succeeds with a positive count `n`, the
output array is exactly the `n` entries (all non-NULL) followed by the NULL
sentinel at index `n`; in particular the vectors handed to `fexecve` are
NULL-terminated. -/
theorem parse_xargs_sentinel (junk : Option (List Nat)) (bs : List Nat)
    (n : Nat) (h1 : (parse_xargs junk (some bs)).1 = (n : Int))
    (h2 : 0 < n) :
    (parse_xargs junk (some bs)).2 =
      (parseEntries bs).map some ++ [none] ∧
    (parseEntries bs).length = n ∧
    (parse_xargs junk (some bs)).2.length = n + 1 ∧
    (parse_xargs junk (some bs)).2[n]? = some none := by
  cases bs with
  | nil =>
      have h0 : (parse_xargs junk (some ([] : List Nat))).1 = 0 := by
        simp [parse_xargs, parseStepF]
      rw [h0] at h1
      omega
  | cons b rest =>
      have heq := parse_xargs_eq junk b rest
      rw [heq] at h1
      simp only at h1
      have hn : (parseEntries (b :: rest)).length = n := by
        exact_mod_cast h1
      have hlen : ((parseEntries (b :: rest)).map some ++
          ([none] : List (Option (List Nat)))).length = n + 1 := by
        simp [hn]
      have hget : ((parseEntries (b :: rest)).map some ++
          ([none] : List (Option (List Nat))))[n]? = some none := by
        rw [List.getElem?_append_right (by simp [hn])]
        simp [hn]
      rw [heq]
      exact ⟨rfl, hn, hlen, hget⟩

/-- Claim C9 (witness). -/
theorem parse_xargs_sentinel_witness :
    (parse_xargs none (some [97, 0])).2 =
      (parseEntries [97, 0]).map some ++ [none] ∧
    (parseEntries [97, 0]).length = 1 ∧
    (parse_xargs none (some [97, 0])).2.length = 1 + 1 ∧
    (parse_xargs none (some [97, 0])).2[1]? = some none :=
  parse_xargs_sentinel none [97, 0] 1 (by decide) (by decide)

/-- Claim C4: with seal query available, detection reports Cloned exactly
when the queried seal set equals the expected set; in the fallback build it
reports Cloned exactly when `fstat` succeeds and the link count is zero; and
when the executable path cannot be opened, both builds report
`-ENOTRECOVERABLE` — never NotCloned. -/
theorem is_self_cloned_spec (w : Inj) (s : FdState) :
    (w.openExeFail = false →
      (((is_self_cloned w s).1 = 1 ↔
          w.sealsRet = (RUNC_MEMFD_SEALS : Int)) ∧
        ((is_self_cloned_nomemfd w s).1 = 1 ↔
          (w.fstatFail = false ∧ w.nlink = 0)))) ∧
    (w.openExeFail = true →
      ((is_self_cloned w s).1 = -ENOTRECOVERABLE ∧
        (is_self_cloned_nomemfd w s).1 = -ENOTRECOVERABLE ∧
        (is_self_cloned w s).1 ≠ 0 ∧
        (is_self_cloned_nomemfd w s).1 ≠ 0)) := by
  constructor
  · intro ho
    constructor
    · rw [is_self_cloned_fst w s ho]
      split
      · simp_all
      · simp_all
    · simp only [is_self_cloned_nomemfd, ho, Bool.false_eq_true, if_false]
      cases hf : w.fstatFail with
      | true => simp [hf]
      | false =>
          cases hn : w.nlink with
          | zero => simp
          | succ k => simp
  · intro ho
    refine ⟨by simp [is_self_cloned, ho],
      by simp [is_self_cloned_nomemfd, ho], ?_, ?_⟩
    · simp [is_self_cloned, ho, ENOTRECOVERABLE]
    · simp [is_self_cloned_nomemfd, ho, ENOTRECOVERABLE]

/-- Claim C4 (witness): with the exact seal set present detection reports
Cloned; with the executable unopenable it reports `-ENOTRECOVERABLE`. -/
theorem is_self_cloned_spec_witness :
    (is_self_cloned { wOk with sealsRet := 15 } fd0).1 = 1 ∧
    (is_self_cloned { wOk with openExeFail := true } fd0).1 =
      -ENOTRECOVERABLE :=
  ⟨((is_self_cloned_spec { wOk with sealsRet := 15 } fd0).1
      (by decide)).1.mpr (by decide),
    ((is_self_cloned_spec { wOk with openExeFail := true } fd0).2
      (by decide)).1⟩

/-- Claim C10: in the fallback build, when the executable opens but `fstat`
fails, detection returns NotCloned (0), not an error, so the guard proceeds
to clone. -/
theorem is_self_cloned_nomemfd_fstat_fail (w : Inj) (s : FdState)
    (ho : w.openExeFail = false) (hf : w.fstatFail = true) :
    (is_self_cloned_nomemfd w s).1 = 0 ∧
      ¬ (is_self_cloned_nomemfd w s).1 < 0 := by
  simp [is_self_cloned_nomemfd, ho, hf]

/-- Claim C10 (witness). -/
theorem is_self_cloned_nomemfd_fstat_fail_witness :
    (is_self_cloned_nomemfd { wOk with fstatFail := true } fd0).1 = 0 ∧
      ¬ (is_self_cloned_nomemfd { wOk with fstatFail := true } fd0).1 < 0 :=
  is_self_cloned_nomemfd_fstat_fail { wOk with fstatFail := true } fd0
    (by decide) (by decide)

/-- Claim C6 (counterexample): a run with an unreadable command-line
pseudo-file makes `fetchve` fail with `-EINVAL` — the Invalid-Input code,
not a distinct I/O code. -/
theorem fetchve_unreadable_einval_cex :
    (fetchve { wOk with cmdline := .unreadable } fd0).1 =
      .error (-EINVAL) ∧
    (-EINVAL : Int) ≠ -EIO_errno ∧
    (fetchve { wOk with cmdline := .unreadable } fd0).1 ≠
      .error (-EIO_errno) := by
  decide

/-- Claim C6 (amended): every failure of `fetchve` — an unreadable source
included — carries the single code `-EINVAL`; unreadable sources are not
distinguished from empty or malformed ones. -/
theorem fetchve_error_code (w : Inj) (s : FdState) :
    (∀ e : Int, (fetchve w s).1 = .error e → e = -EINVAL) ∧
    (w.cmdline = .unreadable → (fetchve w s).1 = .error (-EINVAL)) ∧
    (w.environ = .unreadable → (fetchve w s).1 = .error (-EINVAL)) := by
  refine ⟨?_, ?_, ?_⟩
  · intro e he
    unfold fetchve at he
    cases hc : (read_file w.cmdline s).1 with
    | none => simp [hc] at he; omega
    | some cmdl =>
        cases henv : (read_file w.environ (read_file w.cmdline s).2).1 with
        | none => simp [hc, henv] at he; omega
        | some env =>
            simp only [hc, henv] at he
            by_cases hp : (parse_xargs w.junk (some cmdl)).1 ≤ 0
            · simp [hp] at he; omega
            · by_cases hq : (parse_xargs w.junk (some env)).1 ≤ 0
              · simp [hp, hq] at he; omega
              · simp [hp, hq] at he
  · intro hc
    unfold fetchve
    rw [hc]
    simp [read_file]
  · intro henv
    unfold fetchve
    cases hc : (read_file w.cmdline s).1 with
    | none => simp [hc]
    | some cmdl =>
        rw [henv]
        simp only [hc]
        simp [read_file]

/-- Claim C6 (amended, witness). -/
theorem fetchve_error_code_witness :
    (-EINVAL : Int) = -EINVAL ∧
    (fetchve { wOk with cmdline := .unreadable } fd0).1 =
      .error (-EINVAL) ∧
    (fetchve { wOk with environ := .unreadable } fd0).1 =
      .error (-EINVAL) :=
  ⟨(fetchve_error_code { wOk with cmdline := .unreadable } fd0).1
      (-EINVAL) (by decide),
    (fetchve_error_code { wOk with cmdline := .unreadable } fd0).2.1
      (by decide),
    (fetchve_error_code { wOk with environ := .unreadable } fd0).2.2
      (by decide)⟩

/-- Claim C7: an empty command-line source makes `fetchve` fail with
`-EINVAL`, and a successful `fetchve` never yields an empty argument vector:
the argv array starts with an actual entry. -/
theorem fetchve_empty_reject (w : Inj) (s : FdState) :
    (w.cmdline = .content [] → (fetchve w s).1 = .error (-EINVAL)) ∧
    (∀ argv envp, (fetchve w s).1 = .ok (argv, envp) →
      ∃ e rest, argv = some e :: rest) := by
  constructor
  · intro hc
    unfold fetchve
    rw [hc]
    simp [read_file_content_fst]
  · intro argv envp hok
    unfold fetchve at hok
    cases hc : (read_file w.cmdline s).1 with
    | none => simp [hc] at hok
    | some cmdl =>
        cases henv : (read_file w.environ (read_file w.cmdline s).2).1 with
        | none => simp [hc, henv] at hok
        | some env =>
            simp only [hc, henv] at hok
            by_cases hp : (parse_xargs w.junk (some cmdl)).1 ≤ 0
            · simp [hp] at hok
            · by_cases hq : (parse_xargs w.junk (some env)).1 ≤ 0
              · simp [hp, hq] at hok
              · simp only [hp, hq, if_false] at hok
                have hargv : argv = (parse_xargs w.junk (some cmdl)).2 := by
                  cases hok
                  rfl
                cases hcm : cmdl with
                | nil =>
                    rw [hcm] at hp
                    exact absurd (by simp [parse_xargs, parseStepF]) hp
                | cons b rest =>
                    rw [hargv, hcm, parse_xargs_eq, parseEntries_cons]
                    exact ⟨cstr (b :: rest), _, rfl⟩

/-- Claim C7 (witness). -/
theorem fetchve_empty_reject_witness :
    (fetchve { wOk with cmdline := .content [] } fd0).1 =
      .error (-EINVAL) ∧
    ∃ e rest,
      ([some [97], none] : List (Option (List Nat))) = some e :: rest :=
  ⟨(fetchve_empty_reject { wOk with cmdline := .content [] } fd0).1
      (by decide),
    (fetchve_empty_reject wOk fd0).2 [some [97], none] [some [98], none]
      (by decide)⟩

/-- Claim C2 (counterexample): with an executable one byte larger than
`RUNC_SENDFILE_MAX`, `clone_binary` succeeds but the sealed image holds only
the first `RUNC_SENDFILE_MAX` bytes — there is no transfer loop, so the
image content differs from the source content. -/
theorem clone_binary_truncation_cex :
    0 ≤ (clone_binary wBig fd0).1 ∧
    (clone_binary wBig fd0).2.1 =
      some ⟨List.replicate RUNC_SENDFILE_MAX 0, RUNC_MEMFD_SEALS⟩ ∧
    List.replicate RUNC_SENDFILE_MAX (0 : Nat) ≠ wBig.selfExe := by
  have h := clone_binary_eq_success wBig fd0 fd0_wf rfl rfl rfl rfl
  have htake : wBig.selfExe.take RUNC_SENDFILE_MAX =
      List.replicate RUNC_SENDFILE_MAX (0 : Nat) := by
    show (List.replicate (RUNC_SENDFILE_MAX + 1) (0 : Nat)).take
      RUNC_SENDFILE_MAX = _
    rw [List.take_replicate]
    have hmin : RUNC_SENDFILE_MAX ⊓ (RUNC_SENDFILE_MAX + 1) =
        RUNC_SENDFILE_MAX := by omega
    rw [hmin]
  refine ⟨by rw [h]; simp [fd0], by rw [h, htake], ?_⟩
  intro heq
  have hlen := congrArg List.length heq
  simp only [List.length_replicate] at hlen
  have : wBig.selfExe.length = RUNC_SENDFILE_MAX + 1 := by
    show (List.replicate (RUNC_SENDFILE_MAX + 1) (0 : Nat)).length = _
    simp
  omega

/-- Claim C2 (amended): `clone_binary` performs a single bounded transfer
capped at `RUNC_SENDFILE_MAX`; on success the sealed image content is the
first `RUNC_SENDFILE_MAX` bytes of the executable, hence byte-exact exactly
for executables of at most `RUNC_SENDFILE_MAX` bytes. -/
theorem clone_binary_content (w : Inj) (s : FdState) (h : s.WF)
    (img : MemImage) (himg : (clone_binary w s).2.1 = some img) :
    img.content = w.selfExe.take RUNC_SENDFILE_MAX ∧
    (w.selfExe.length ≤ RUNC_SENDFILE_MAX → img.content = w.selfExe) := by
  have himg2 := clone_binary_some w s h img himg
  subst himg2
  exact ⟨rfl, fun hle => List.take_of_length_le hle⟩

/-- Claim C2 (amended, witness). -/
theorem clone_binary_content_witness :
    FdState.WF fd0 ∧
    ((⟨[1, 2, 3], RUNC_MEMFD_SEALS⟩ : MemImage).content =
      wOk.selfExe.take RUNC_SENDFILE_MAX ∧
    (wOk.selfExe.length ≤ RUNC_SENDFILE_MAX →
      (⟨[1, 2, 3], RUNC_MEMFD_SEALS⟩ : MemImage).content = wOk.selfExe)) :=
  ⟨fd0_wf, clone_binary_content wOk fd0 fd0_wf
    ⟨[1, 2, 3], RUNC_MEMFD_SEALS⟩ (by decide)⟩

/-- Claim C8: a successful clone is sealed with exactly the seal set the
detector queries for, so a second guard run in the re-executed process (its
executable now reporting that seal set) detects Cloned and returns 1 at once
with only the detection step invoked — no second clone. -/
theorem ensure_idempotent_after_hop (w : Inj) (s : FdState) (h : s.WF)
    (img : MemImage) (himg : (clone_binary w s).2.1 = some img)
    (w2 : Inj) (s2 : FdState) (h2 : w2.openExeFail = false)
    (h3 : w2.sealsRet = (img.seals : Int)) :
    img.seals = RUNC_MEMFD_SEALS ∧
    (ensure_cloned_binary w2 s2).1 = .ret 1 ∧
    (ensure_cloned_binary w2 s2).2.2 = [.detect] := by
  have himg2 := clone_binary_some w s h img himg
  have hseals : img.seals = RUNC_MEMFD_SEALS := by rw [himg2]
  have hd : (is_self_cloned w2 s2).1 = 1 := by
    rw [is_self_cloned_fst w2 s2 h2, if_pos]
    rw [h3, hseals]
  have hguard : (is_self_cloned w2 s2).1 > 0 ∨
      (is_self_cloned w2 s2).1 = -ENOTRECOVERABLE := by
    left
    rw [hd]
    norm_num
  have hmain : ensure_cloned_binary w2 s2 =
      (.ret (is_self_cloned w2 s2).1, (is_self_cloned w2 s2).2,
        [.detect]) := by
    simp only [ensure_cloned_binary]
    rw [if_pos hguard]
  refine ⟨hseals, ?_, ?_⟩
  · rw [hmain]
    simp [hd]
  · rw [hmain]

/-- Claim C8 (witness). -/
theorem ensure_idempotent_after_hop_witness :
    (⟨[1, 2, 3], RUNC_MEMFD_SEALS⟩ : MemImage).seals = RUNC_MEMFD_SEALS ∧
    (ensure_cloned_binary { wOk with sealsRet := 15 } fd0).1 = .ret 1 ∧
    (ensure_cloned_binary { wOk with sealsRet := 15 } fd0).2.2 =
      [.detect] :=
  ensure_idempotent_after_hop wOk fd0 fd0_wf
    ⟨[1, 2, 3], RUNC_MEMFD_SEALS⟩ (by decide)
    { wOk with sealsRet := 15 } fd0 (by decide) (by decide)

/-- Claim C5: the guard detects first and, when already cloned, returns the
positive detection result with no other operation invoked; every returned
negative status is one of the four fatal codes (`-ENOTRECOVERABLE`,
`-EINVAL`, `-EIO`, `-ENOEXEC`); and no operation is ever invoked more than
once in a run. -/
theorem ensure_cloned_binary_spec (w : Inj) (s : FdState) :
    ((is_self_cloned w s).1 > 0 →
      (ensure_cloned_binary w s).1 = .ret (is_self_cloned w s).1 ∧
      (ensure_cloned_binary w s).2.2 = [.detect]) ∧
    (∀ c : Int, (ensure_cloned_binary w s).1 = .ret c → c < 0 →
      (c = -ENOTRECOVERABLE ∨ c = -EINVAL ∨ c = -EIO_errno ∨
        c = -ENOEXEC)) ∧
    (ensure_cloned_binary w s).2.2.Nodup := by
  by_cases hguard : (is_self_cloned w s).1 > 0 ∨
      (is_self_cloned w s).1 = -ENOTRECOVERABLE
  · have hmain : ensure_cloned_binary w s =
        (.ret (is_self_cloned w s).1, (is_self_cloned w s).2,
          [.detect]) := by
      simp only [ensure_cloned_binary]
      rw [if_pos hguard]
    refine ⟨fun _ => ⟨by rw [hmain], by rw [hmain]⟩, ?_, by rw [hmain]; simp⟩
    intro c hret hneg
    rw [hmain] at hret
    injection hret with hc
    rcases hguard with hpos | hnr
    · omega
    · left
      rw [← hc]
      exact hnr
  · cases hf : (fetchve w (is_self_cloned w s).2).1 with
    | error e =>
        have hmain : ensure_cloned_binary w s =
            (.ret (-EINVAL), (fetchve w (is_self_cloned w s).2).2,
              [.detect, .fetch]) := by
          simp only [ensure_cloned_binary]
          rw [if_neg hguard]
          simp only [hf]
        refine ⟨fun hpos => absurd (Or.inl hpos) hguard, ?_,
          by rw [hmain]; exact (by decide : ([.detect, .fetch] : List Op).Nodup)⟩
        intro c hret hneg
        rw [hmain] at hret
        injection hret with hc
        right; left
        exact hc.symm
    | ok ve =>
        by_cases hcl :
            (clone_binary w (fetchve w (is_self_cloned w s).2).2).1 < 0
        · have hmain : ensure_cloned_binary w s =
              (.ret (-EIO_errno),
                (clone_binary w (fetchve w (is_self_cloned w s).2).2).2.2,
                [.detect, .fetch, .clone]) := by
            simp only [ensure_cloned_binary]
            rw [if_neg hguard]
            simp only [hf]
            rw [if_pos hcl]
          refine ⟨fun hpos => absurd (Or.inl hpos) hguard, ?_,
            by rw [hmain]; exact
              (by decide : ([.detect, .fetch, .clone] : List Op).Nodup)⟩
          intro c hret hneg
          rw [hmain] at hret
          injection hret with hc
          right; right; left
          exact hc.symm
        · cases he : w.execFail with
          | true =>
              have hmain : ensure_cloned_binary w s =
                  (.ret (-ENOEXEC),
                    (clone_binary w
                      (fetchve w (is_self_cloned w s).2).2).2.2,
                    [.detect, .fetch, .clone, .reexec]) := by
                simp only [ensure_cloned_binary]
                rw [if_neg hguard]
                simp only [hf]
                rw [if_neg hcl, if_pos he]
              refine ⟨fun hpos => absurd (Or.inl hpos) hguard, ?_,
                by rw [hmain]; exact (by decide :
                  ([.detect, .fetch, .clone, .reexec] : List Op).Nodup)⟩
              intro c hret hneg
              rw [hmain] at hret
              injection hret with hc
              right; right; right
              exact hc.symm
          | false =>
              have hmain : ensure_cloned_binary w s =
                  (.exec (clone_binary w
                      (fetchve w (is_self_cloned w s).2).2).1.toNat
                    ve.1 ve.2,
                    (clone_binary w
                      (fetchve w (is_self_cloned w s).2).2).2.2,
                    [.detect, .fetch, .clone, .reexec]) := by
                simp only [ensure_cloned_binary]
                rw [if_neg hguard]
                simp only [hf]
                rw [if_neg hcl, if_neg (by simp [he])]
              refine ⟨fun hpos => absurd (Or.inl hpos) hguard, ?_,
                by rw [hmain]; exact (by decide :
                  ([.detect, .fetch, .clone, .reexec] : List Op).Nodup)⟩
              intro c hret _
              rw [hmain] at hret
              exact absurd hret (by simp)

/-- Claim C5 (witness): a run that detects Cloned returns the detection
result with only the detection step invoked. -/
theorem ensure_cloned_binary_spec_witness :
    (ensure_cloned_binary { wOk with sealsRet := 15 } fd0).1 =
      .ret (is_self_cloned { wOk with sealsRet := 15 } fd0).1 ∧
    (ensure_cloned_binary { wOk with sealsRet := 15 } fd0).2.2 =
      [.detect] :=
  (ensure_cloned_binary_spec { wOk with sealsRet := 15 } fd0).1 (by decide)

/-- Claim C1 (counterexample): when `fexecve` fails, `ensure_cloned_binary`
returns `-ENOEXEC` with the sealed image descriptor still open: the
descriptor set after the call differs from the set before it. -/
theorem ensure_fd_leak_on_exec_fail_cex :
    (ensure_cloned_binary { wOk with execFail := true } fd0).1 =
      .ret (-ENOEXEC) ∧
    (ensure_cloned_binary { wOk with execFail := true } fd0).2.1.fds ≠
      fd0.fds := by
  decide

/-- Claim C1 (amended): on a failing run, if the re-exec step was never
reached (failure injected at detection, fetch, descriptor creation, the bulk
transfer, or sealing) the open-descriptor set is unchanged; if the failure
is at re-exec, exactly one descriptor — the sealed image — remains open on
top of the original set. -/
theorem ensure_fd_discipline (w : Inj) (s : FdState) (h : s.WF) (c : Int)
    (hret : (ensure_cloned_binary w s).1 = .ret c) (hneg : c < 0) :
    ((ensure_cloned_binary w s).2.2 ≠ [.detect, .fetch, .clone, .reexec] →
      (ensure_cloned_binary w s).2.1.fds = s.fds) ∧
    ((ensure_cloned_binary w s).2.2 = [.detect, .fetch, .clone, .reexec] →
      ∃ fd, fd ∉ s.fds ∧
        (ensure_cloned_binary w s).2.1.fds = insert fd s.fds) := by
  have hd := is_self_cloned_keeps w s h
  have hwf1 : (is_self_cloned w s).2.WF := keepsFds_wf h hd
  have hfk := fetchve_keeps w (is_self_cloned w s).2 hwf1
  have hsf : KeepsFds s (fetchve w (is_self_cloned w s).2).2 :=
    keepsFds_trans hd hfk
  have hwf2 : (fetchve w (is_self_cloned w s).2).2.WF := keepsFds_wf h hsf
  by_cases hguard : (is_self_cloned w s).1 > 0 ∨
      (is_self_cloned w s).1 = -ENOTRECOVERABLE
  · have hmain : ensure_cloned_binary w s =
        (.ret (is_self_cloned w s).1, (is_self_cloned w s).2,
          [.detect]) := by
      simp only [ensure_cloned_binary]
      rw [if_pos hguard]
    constructor
    · intro _
      rw [hmain]
      exact hd.1
    · intro habs
      rw [hmain] at habs
      simp at habs
  · cases hf : (fetchve w (is_self_cloned w s).2).1 with
    | error e =>
        have hmain : ensure_cloned_binary w s =
            (.ret (-EINVAL), (fetchve w (is_self_cloned w s).2).2,
              [.detect, .fetch]) := by
          simp only [ensure_cloned_binary]
          rw [if_neg hguard]
          simp only [hf]
        constructor
        · intro _
          rw [hmain]
          exact hsf.1
        · intro habs
          rw [hmain] at habs
          simp at habs
    | ok ve =>
        by_cases hcl :
            (clone_binary w (fetchve w (is_self_cloned w s).2).2).1 < 0
        · have hmain : ensure_cloned_binary w s =
              (.ret (-EIO_errno),
                (clone_binary w (fetchve w (is_self_cloned w s).2).2).2.2,
                [.detect, .fetch, .clone]) := by
            simp only [ensure_cloned_binary]
            rw [if_neg hguard]
            simp only [hf]
            rw [if_pos hcl]
          constructor
          · intro _
            rw [hmain]
            rw [clone_binary_fail_fds w _ hwf2 hcl]
            exact hsf.1
          · intro habs
            rw [hmain] at habs
            simp at habs
        · cases he : w.execFail with
          | true =>
              have hmain : ensure_cloned_binary w s =
                  (.ret (-ENOEXEC),
                    (clone_binary w
                      (fetchve w (is_self_cloned w s).2).2).2.2,
                    [.detect, .fetch, .clone, .reexec]) := by
                simp only [ensure_cloned_binary]
                rw [if_neg hguard]
                simp only [hf]
                rw [if_neg hcl, if_pos he]
              obtain ⟨hfresh, hins⟩ :=
                clone_binary_succ_fds w _ hwf2 hcl
              constructor
              · intro habs
                rw [hmain] at habs
                exact absurd rfl habs
              · intro _
                refine ⟨(fetchve w (is_self_cloned w s).2).2.next, ?_, ?_⟩
                · rw [← hsf.1]
                  exact hfresh
                · rw [hmain]
                  rw [hins, hsf.1]
          | false =>
              have hmain : ensure_cloned_binary w s =
                  (.exec (clone_binary w
                      (fetchve w (is_self_cloned w s).2).2).1.toNat
                    ve.1 ve.2,
                    (clone_binary w
                      (fetchve w (is_self_cloned w s).2).2).2.2,
                    [.detect, .fetch, .clone, .reexec]) := by
                simp only [ensure_cloned_binary]
                rw [if_neg hguard]
                simp only [hf]
                rw [if_neg hcl, if_neg (by simp [he])]
              rw [hmain] at hret
              exact absurd hret (by simp)

/-- Claim C1 (amended, witness): a seal failure returns with the descriptor
set unchanged. -/
theorem ensure_fd_discipline_witness :
    FdState.WF fd0 ∧
    (ensure_cloned_binary { wOk with sealFail := true } fd0).2.1.fds =
      fd0.fds :=
  ⟨fd0_wf,
    (ensure_fd_discipline { wOk with sealFail := true } fd0 fd0_wf
      (-EIO_errno) (by decide) (by decide)).1 (by decide)⟩

end ClonedBinary
